import Mathlib

/-!
Verification development for the cookie-shop conversation engine.

The definitions below are a shallow embedding of the rule-based
conversation state machine and its helpers:

* `config.js` — catalog (`BUSINESS_CONFIG.products`), alias table
  (`BUSINESS_CONFIG.flavorAliases`), `getAvailableProducts`,
  `getProductByName`;
* `lib/gemini.js` — `classifyIntentQuick`, `extractOrderDetailsLocal`,
  `extractOrderDetails`;
* `lib/conversation.js` — `STATES`, `createSession`, `processMessage` and
  the five state handlers, `processOrder`, `addItemsToOrder`;
* `lib/tools/sheets.js` — `recordOrderToSheets`;
* `app/api/chat/route.js` — the `POST` handler around `processMessage`.

External collaborators (the Gemini calls, the Google-Sheets append, fresh
order-id generation) are parameterized as oracle values, mirroring exactly
which outcomes the source can observe from them.  JavaScript numbers are
embedded as integers: every price in the embedded catalog is a whole
number of dollars, so each quantity × price product and each running total
the engine can compute is an integer, on which JavaScript float arithmetic
is exact.  JavaScript regular expressions are embedded as an explicit
backtracking matcher over the same pattern syntax, and thrown exceptions
as `Except`.
-/

namespace Smb

/-! ### JavaScript string primitives -/

/-- The apostrophe character, kept out of string literals. -/
def aposC : Char := Char.ofNat 39

/-- The apostrophe as a one-character string. -/
def apos : String := String.singleton aposC

/-- Character class for the regex `\s` (and the whitespace set `trim`
strips; ASCII range suffices for this program). -/
def isSpaceC (c : Char) : Bool := c = ' ' || c = '\t' || c = '\n' || c = '\r'

/-- JavaScript `String.prototype.toLowerCase` (ASCII range suffices here). -/
def jsToLower (s : String) : String := ⟨s.data.map Char.toLower⟩

/-- JavaScript `String.prototype.trim`: strip whitespace from both ends. -/
def jsTrim (s : String) : String :=
  ⟨((s.data.dropWhile isSpaceC).reverse.dropWhile isSpaceC).reverse⟩

/-- Does `needle` occur as an initial segment of `hay`? -/
def leadsWith : List Char → List Char → Bool
  | [], _ => true
  | _ :: _, [] => false
  | n :: ns, h :: hs => n = h && leadsWith ns hs

/-- Does `needle` occur as a contiguous subsequence of `hay`? -/
def containsSeq (needle : List Char) : List Char → Bool
  | [] => leadsWith needle []
  | h :: hs => leadsWith needle (h :: hs) || containsSeq needle hs

/-- JavaScript `hay.includes(needle)`. -/
def jsIncludes (hay needle : String) : Bool := containsSeq needle.data hay.data

/-- Character class for the regex `\d`. -/
def isDigitC (c : Char) : Bool := c.isDigit

/-- Character class for the regex `\w`. -/
def isWordC (c : Char) : Bool := c.isAlphanum || c = '_'

/-! ### A small backtracking regex matcher

The source uses JavaScript regular expressions built from literals, the
classes `\s` `\d` `\w` `[\s!.]` `[^\s@]`, greedy `*` `+` `?`, ordered
alternation, word boundaries `\b`, and a single capturing group `(\d+)`.
The syntax below covers exactly those constructs; the matcher follows the
JavaScript backtracking order (leftmost start, greedy quantifiers,
alternatives tried left to right), so a `test`/`match` on a concrete
string evaluates to the same outcome as in the source. -/

inductive RE where
  | eps : RE
  | lit : String → RE
  | seq : RE → RE → RE
  | alt : RE → RE → RE
  | quest : RE → RE
  | starC : (Char → Bool) → RE
  | plusC : (Char → Bool) → RE
  | grpD : RE
  | bnd : RE

/-- Continuation: remaining input, previously consumed character (for word
boundaries), captures collected so far. -/
abbrev RCont := List Char → Option Char → List (List Char) → Option (List (List Char))

/-- Consume a literal; returns the rest and the new previous character. -/
def litStep : List Char → List Char → Option Char → Option (List Char × Option Char)
  | [], l, prev => some (l, prev)
  | c :: cs, l, _ =>
    match l with
    | [] => none
    | h :: hs => if h = c then litStep cs hs (some h) else none

/-- Greedy Kleene star over a character class: consume as much as possible,
backtracking one character at a time. -/
def starStep (p : Char → Bool) (k : RCont) : List Char → Option Char → List (List Char) → Option (List (List Char))
  | [], prev, caps => k [] prev caps
  | c :: rest, prev, caps =>
    if p c then
      match starStep p k rest (some c) caps with
      | some r => some r
      | none => k (c :: rest) prev caps
    else k (c :: rest) prev caps

/-- Greedy `(\d+)` capture: consume at least one digit, longest first,
recording the digits consumed as a capture. -/
def grpStep (k : RCont) (acc : List Char) : List Char → Option Char → List (List Char) → Option (List (List Char))
  | [], prev, caps => if acc.isEmpty then none else k [] prev (caps ++ [acc])
  | c :: rest, prev, caps =>
    if isDigitC c then
      match grpStep k (acc ++ [c]) rest (some c) caps with
      | some r => some r
      | none => if acc.isEmpty then none else k (c :: rest) prev (caps ++ [acc])
    else if acc.isEmpty then none else k (c :: rest) prev (caps ++ [acc])

/-- A `\b` word boundary holds between two positions iff exactly one side is
a word character (ends of input count as non-word). -/
def atBnd (prev next : Option Char) : Bool :=
  let a := match prev with | some c => isWordC c | none => false
  let b := match next with | some c => isWordC c | none => false
  a != b

/-- The backtracking matcher in continuation style.  `reM r l prev caps k`
matches `r` against a prefix of `l` and hands the rest to `k`, trying the
continuation at each backtracking point in JavaScript preference order. -/
def reM : RE → List Char → Option Char → List (List Char) → RCont → Option (List (List Char))
  | .eps, l, prev, caps, k => k l prev caps
  | .lit s, l, prev, caps, k =>
    match litStep s.data l prev with
    | some (rest, p2) => k rest p2 caps
    | none => none
  | .seq a b, l, prev, caps, k => reM a l prev caps (fun l2 p2 c2 => reM b l2 p2 c2 k)
  | .alt a b, l, prev, caps, k =>
    match reM a l prev caps k with
    | some r => some r
    | none => reM b l prev caps k
  | .quest a, l, prev, caps, k =>
    match reM a l prev caps k with
    | some r => some r
    | none => k l prev caps
  | .starC p, l, prev, caps, k => starStep p k l prev caps
  | .plusC p, l, _, caps, k =>
    match l with
    | [] => none
    | c :: rest => if p c then starStep p k rest (some c) caps else none
  | .grpD, l, prev, caps, k => grpStep k [] l prev caps
  | .bnd, l, prev, caps, k => if atBnd prev l.head? then k l prev caps else none

/-- Unanchored search: try each start position from the left, as the
JavaScript `test`/`match` of an unanchored pattern does. -/
def reSearchAux (r : RE) : List Char → Option Char → Option (List (List Char))
  | l, prev =>
    match reM r l prev [] (fun _ _ caps => some caps) with
    | some caps => some caps
    | none =>
      match l with
      | [] => none
      | c :: rest => reSearchAux r rest (some c)

/-- `String.prototype.match` for an unanchored pattern: captures of the
leftmost match, if any. -/
def reFind (r : RE) (s : String) : Option (List (List Char)) := reSearchAux r s.data none

/-- `RegExp.prototype.test` for an unanchored pattern. -/
def reTest (r : RE) (s : String) : Bool := (reFind r s).isSome

/-- `RegExp.prototype.test` for a `^...$`-anchored pattern. -/
def reFull (r : RE) (s : String) : Bool :=
  (reM r s.data none [] (fun l _ caps => if l.isEmpty then some caps else none)).isSome

/-- Right-nested alternation of a non-empty list of branches, in order. -/
def reAlts : List RE → RE
  | [] => .eps
  | [r] => r
  | r :: rest => .alt r (reAlts rest)

/-- Sequential composition of a list of regexes. -/
def reSeq : List RE → RE
  | [] => .eps
  | [r] => r
  | r :: rest => .seq r (reSeq rest)

/-- Ordered alternation of string literals. -/
def litAlts (xs : List String) : RE := reAlts (xs.map RE.lit)

/-- Numeric value of a digit capture, as `parseInt` computes it. -/
def digitsToNat (l : List Char) : Nat := l.foldl (fun n c => n * 10 + (c.toNat - 48)) 0

/-! ### Business configuration (`config.js`)

The `BUSINESS_CONFIG` catalog and alias table of `config.js`, embedded
verbatim (prices as exact rationals). -/

structure Product where
  id : String
  name : String
  price : ℤ
  unit : String
  available : Bool
  deriving DecidableEq, Repr

/-- `BUSINESS_CONFIG.products`. -/
def configProducts : List Product :=
  [⟨"chocolate-chip", "Chocolate Chip", 18, "dozen", true⟩,
   ⟨"oatmeal-raisin", "Oatmeal Raisin", 16, "dozen", true⟩,
   ⟨"snickerdoodle", "Snickerdoodle", 15, "dozen", true⟩,
   ⟨"peanut-butter", "Peanut Butter", 17, "dozen", true⟩,
   ⟨"sugar-cookie", "Sugar Cookie", 14, "dozen", true⟩,
   ⟨"double-chocolate", "Double Chocolate", 19, "dozen", true⟩]

/-- `BUSINESS_CONFIG.flavorAliases`, in object-key order. -/
def flavorAliases : List (String × String) :=
  [("chocolate", "Chocolate Chip"),
   ("choc chip", "Chocolate Chip"),
   ("cc", "Chocolate Chip"),
   ("oatmeal", "Oatmeal Raisin"),
   ("oat", "Oatmeal Raisin"),
   ("snicker", "Snickerdoodle"),
   ("cinnamon", "Snickerdoodle"),
   ("pb", "Peanut Butter"),
   ("peanut", "Peanut Butter"),
   ("sugar", "Sugar Cookie"),
   ("plain", "Sugar Cookie"),
   ("double choc", "Double Chocolate")]

/-- JavaScript `BUSINESS_CONFIG.flavorAliases[key]` property lookup. -/
def aliasLookup (key : String) : Option String :=
  (flavorAliases.find? (fun kv => kv.1 = key)).map (·.2)

/-- `getAvailableProducts` from `config.js`. -/
def getAvailableProducts : List Product := configProducts.filter (·.available)

/-- `getProductByName` from `config.js`: lowercase and trim, consult the
alias table first, then match a product by exact lowercase name or by
substring containment of the query inside the product name. -/
def getProductByName (name : String) : Option Product :=
  let normalized := jsTrim (jsToLower name)
  match aliasLookup normalized with
  | some canonical => configProducts.find? (fun p => p.name = canonical)
  | none =>
    configProducts.find? (fun p =>
      jsToLower p.name = normalized || jsIncludes (jsToLower p.name) normalized)

/-! ### Quick intent classification (`classifyIntentQuick` in `lib/gemini.js`) -/

/-- Character class for the regex `[\s!.]`. -/
def trailerC (c : Char) : Bool := isSpaceC c || c = '!' || c = '.'

/-- Shorthand for the regex `\s*`. -/
def spaceStar : RE := .starC isSpaceC

/-- The regex fragment `(?:dozen|dz|doz)?`. -/
def unitOpt : RE := .quest (litAlts ["dozen", "dz", "doz"])

/-- The regex fragment `(?:\w+\s+)?` (one optional filler word). -/
def fillerOpt : RE := .quest (.seq (.plusC isWordC) (.plusC isSpaceC))

/-- The regex fragment `(?:cookies?)?`. -/
def cookieOpt : RE := .quest (.seq (.lit "cookie") (.quest (.lit "s")))

/-- Body of `/^(hi|hello|hey|good\s*(morning|afternoon|evening))[\s!.]*$/`. -/
def greetingRE : RE :=
  .seq (reAlts [.lit "hi", .lit "hello", .lit "hey",
      reSeq [.lit "good", spaceStar, litAlts ["morning", "afternoon", "evening"]]])
    (.starC trailerC)

/-- The regex `/(order|buy|want|get|need)\s*(some|a|the)?\s*(cookie|dozen)/`. -/
def orderRE : RE :=
  reSeq [litAlts ["order", "buy", "want", "get", "need"], spaceStar,
    .quest (litAlts ["some", "a", "the"]), spaceStar, litAlts ["cookie", "dozen"]]

/-- The `flavorPatterns` alternation of `classifyIntentQuick`, in source
order: full names then common aliases. -/
def flavorPatternRE : RE :=
  reAlts [reSeq [.lit "chocolate", spaceStar, .lit "chip"],
    .lit "oatmeal", .lit "snicker",
    reSeq [.lit "peanut", spaceStar, .lit "butter"],
    .lit "sugar",
    reSeq [.lit "double", spaceStar, .lit "choc"],
    .lit "pb", .lit "cc", .lit "choc", .lit "cinnamon", .lit "plain", .lit "gf"]

/-- The `orderItemRegex`: number, optional unit word, optional filler word,
then a flavor pattern. -/
def orderItemRE : RE :=
  reSeq [.plusC isDigitC, spaceStar, unitOpt, spaceStar, fillerOpt, flavorPatternRE]

/-- The `flavorFirstRegex`: flavor pattern, optional `cookies?`, then a
number. -/
def flavorFirstRE : RE :=
  reSeq [flavorPatternRE, spaceStar, cookieOpt, spaceStar, .plusC isDigitC]

/-- Body of `/^(yes|yeah|confirm|correct|sure|ok)[\s!.]*$/`. -/
def confirmRE : RE :=
  .seq (litAlts ["yes", "yeah", "confirm", "correct", "sure", "ok"]) (.starC trailerC)

/-- Body of `/^(no|cancel|nevermind|stop)[\s!.]*$/`. -/
def cancelRE : RE :=
  .seq (litAlts ["no", "cancel", "nevermind", "stop"]) (.starC trailerC)

/-- The regex `/\?|what|when|where|how|do you|can i/`. -/
def faqRE : RE :=
  reAlts [.lit "?", .lit "what", .lit "when", .lit "where", .lit "how",
    .lit "do you", .lit "can i"]

/-- `classifyIntentQuick` from `lib/gemini.js`: rule-based intent tags,
checked in source order (greeting, order, order-item, flavor-first
order-item, confirm, cancel, faq, unknown). -/
def classifyIntentQuick (message : String) : String :=
  let lower := jsTrim (jsToLower message)
  if reFull greetingRE lower then "GREETING"
  else if reTest orderRE lower then "ORDER"
  else if reTest orderItemRE lower then "ORDER_ITEM"
  else if reTest flavorFirstRE lower then "ORDER_ITEM"
  else if reFull confirmRE lower then "CONFIRM"
  else if reFull cancelRE lower then "CANCEL"
  else if reTest faqRE lower then "FAQ"
  else "UNKNOWN"

/-! ### Local order extraction (`extractOrderDetailsLocal` in `lib/gemini.js`) -/

/-- An extracted `{flavor, quantity}` pair. -/
structure XItem where
  flavor : String
  quantity : Nat
  deriving DecidableEq, Repr

/-- The lowercased alias keys registered for a product name, in table
order (`Object.entries(aliases).filter(...).map(...)`). -/
def aliasKeysFor (productName : String) : List String :=
  (flavorAliases.filter (fun kv => kv.2 = productName)).map (fun kv => jsToLower kv.1)

/-- The `regexWithQty` built per pattern: `(\d+)\s*(?:dozen|dz|doz)?\s*`
`(?:\w+\s+)?` then the pattern, with `\b` boundaries only when the pattern
has at most 3 characters. -/
def qtyFlavorRE (pat : String) : RE :=
  let b : List RE := if pat.length ≤ 3 then [.bnd] else []
  reSeq ([.grpD, spaceStar, unitOpt, spaceStar, fillerOpt] ++ b ++ [.lit pat] ++ b)

/-- The `regexFlavorFirst` built per pattern: the pattern, `(?:cookies?)?`,
then `(\d+)\s*(?:dozen|dz|doz)?`. -/
def flavorQtyRE (pat : String) : RE :=
  let b : List RE := if pat.length ≤ 3 then [.bnd] else []
  reSeq (b ++ [.lit pat] ++ b ++ [spaceStar, cookieOpt, spaceStar, .grpD, spaceStar, unitOpt])

/-- First captured group of the leftmost match, read with `parseInt`. -/
def firstCapNat (r : RE) (s : String) : Option Nat :=
  match reFind r s with
  | some (c :: _) => some (digitsToNat c)
  | _ => none

/-- The bare-mention check: `\b`-delimited test for short patterns,
`includes` for longer ones. -/
def bareNameMatch (pat : String) (lower : String) : Bool :=
  if pat.length ≤ 3 then reTest (reSeq [.bnd, .lit pat, .bnd]) lower
  else jsIncludes lower pat

/-- The `/\d+/` test guarding implicit quantity 1. -/
def hasDigit (s : String) : Bool := s.data.any isDigitC

/-- Accumulate a quantity for a flavor: bump the first item with that exact
flavor, or push a new one at the end (the `items.find` / `push` logic). -/
def addXItem : List XItem → String → Nat → List XItem
  | [], flavor, q => [⟨flavor, q⟩]
  | i :: rest, flavor, q =>
    if i.flavor = flavor then ⟨i.flavor, i.quantity + q⟩ :: rest
    else i :: addXItem rest flavor q

/-- The inner pattern loop of `extractOrderDetailsLocal` for one product:
first successful pattern wins (`break`), trying quantity-before-flavor,
then flavor-before-quantity, then bare mention (implicit quantity 1 only
when the whole message has no digit; the loop still breaks when a bare
mention is found for a flavor already collected or alongside a digit). -/
def tryPatterns (lower : String) (product : Product) : List String → List XItem → List XItem
  | [], items => items
  | pat :: rest, items =>
    match firstCapNat (qtyFlavorRE pat) lower with
    | some q => addXItem items product.name q
    | none =>
      match firstCapNat (flavorQtyRE pat) lower with
      | some q => addXItem items product.name q
      | none =>
        if bareNameMatch pat lower && (items.find? (fun i => i.flavor = product.name)).isNone then
          if hasDigit lower then items else items ++ [⟨product.name, 1⟩]
        else tryPatterns lower product rest items

/-- `extractOrderDetailsLocal`: per catalog entry, try the product name and
each of its aliases against the lowercased message. -/
def extractOrderDetailsLocal (message : String) (products : List Product) : List XItem :=
  let lower := jsToLower message
  products.foldl
    (fun items product =>
      tryPatterns lower product (jsToLower product.name :: aliasKeysFor product.name) items)
    []

/-! ### Collaborator oracles

The engine observes four external effects: the sheet-backed product list
(`getProducts` in `lib/tools/data-access.js`), the AI extraction fallback
(already JSON-parsed, or `[]` on any failure — `extractOrderDetails`
catches all its errors), the free-form AI chat call (`processWithGemini`,
which either yields a response string or throws), and the Google-Sheets
append used by `recordOrderToSheets` (unconfigured / success / failure)
together with the generated order id.  Each is a field of `Oracles`. -/

/-- Outcome of the Google-Sheets append inside `recordOrderToSheets`. -/
inductive SheetEnv where
  | unconfigured
  | appendOk
  | appendFail
  deriving DecidableEq, Repr

structure Oracles where
  products : List Product
  aiExtractItems : List XItem
  aiChat : Except Unit String
  sheetEnv : SheetEnv
  freshId : String
  deriving Repr

/-- `extractOrderDetails` from `lib/gemini.js`: local extraction first; on
an empty local result fall back to the AI call, whose parsed items (or
`[]` after any error) are returned unchecked. -/
def extractOrderDetails (o : Oracles) (message : String) : List XItem :=
  let localItems := extractOrderDetailsLocal message o.products
  if localItems.length > 0 then localItems else o.aiExtractItems

/-! ### Orders, sessions and persistence (`lib/conversation.js`, `lib/tools/sheets.js`) -/

/-- One order line: flavor, quantity in dozens, unit price at add-time. -/
structure OrderItem where
  flavor : String
  quantity : Nat
  price : ℤ
  deriving DecidableEq, Repr

structure Order where
  items : List OrderItem
  customerName : Option String
  customerEmail : Option String
  total : ℤ
  deriving DecidableEq, Repr

/-- The empty order all clears reset to. -/
def emptyOrder : Order := ⟨[], none, none, 0⟩

/-- The `STATES` enum (`processing` is declared in the source but never
entered; it is dispatched by the `default` branch of `processMessage`). -/
inductive CState where
  | idle
  | collectingOrder
  | collectingName
  | collectingEmail
  | confirmingOrder
  | processing
  deriving DecidableEq, Repr

structure Msg where
  role : String
  content : String
  deriving DecidableEq, Repr

structure Session where
  id : String
  state : CState
  history : List Msg
  order : Order
  deriving DecidableEq, Repr

/-- `createSession` (the generated id is a parameter). -/
def createSession (id : String) : Session := ⟨id, .idle, [], emptyOrder⟩

/-- JavaScript `item.quantity || 1` on a quantity (0 is falsy). -/
def qtyOrOne (q : Nat) : Nat := if q = 0 then 1 else q

/-- Mutate the first line whose lowercased flavor matches `key`, adding
`q` to its quantity (the `find`-then-`+=` of `addItemsToOrder`). -/
def bumpFirst : List OrderItem → String → Nat → List OrderItem
  | [], _, _ => []
  | i :: rest, key, q =>
    if jsToLower i.flavor = key then ⟨i.flavor, i.quantity + q, i.price⟩ :: rest
    else i :: bumpFirst rest key q

/-- One iteration of the `addItemsToOrder` loop: resolve the flavor through
`getProductByName`, skip unknown flavors, merge into an existing line by
case-insensitive flavor comparison or push a new line. -/
def mergeLine (items : List OrderItem) (raw : XItem) : List OrderItem :=
  match getProductByName raw.flavor with
  | none => items
  | some product =>
    let key := jsToLower product.name
    if items.any (fun i => jsToLower i.flavor = key) then
      bumpFirst items key (qtyOrOne raw.quantity)
    else
      items ++ [⟨product.name, qtyOrOne raw.quantity, product.price⟩]

/-- The `reduce` recomputing the running total from the lines. -/
def sumLines (items : List OrderItem) : ℤ :=
  items.foldl (fun sum i => sum + (i.quantity : ℤ) * i.price) 0

/-- `addItemsToOrder`: merge the extracted items into the order's lines and
recompute the total from the resulting lines. -/
def addItemsToOrder (order : Order) (rawItems : List XItem) : Order :=
  let items2 := rawItems.foldl mergeLine order.items
  { order with items := items2, total := sumLines items2 }

/-- Result of `recordOrderToSheets`: the append never throws out of the
function — an unconfigured spreadsheet is skipped, and a failed append is
caught and converted into `success := false` with a freshly generated
order id either way. -/
structure RecordResult where
  success : Bool
  orderId : String
  skipped : Bool
  deriving DecidableEq, Repr

def recordOrderToSheets (env : SheetEnv) (freshId : String) (_order : Order) : RecordResult :=
  match env with
  | .unconfigured => ⟨true, freshId, true⟩
  | .appendOk => ⟨true, freshId, false⟩
  | .appendFail => ⟨false, freshId, false⟩

structure POResult where
  success : Bool
  orderId : String
  deriving DecidableEq, Repr

/-- `processOrder` from `lib/conversation.js`: record to sheets, then
report `success: true` with the sheet result's order id — the sheet
result's own `success` flag is never consulted. -/
def processOrder (env : SheetEnv) (freshId : String) (order : Order) : POResult :=
  let sheetResult := recordOrderToSheets env freshId order
  ⟨true, sheetResult.orderId⟩

/-! ### Response formatting helpers -/

/-- Two-digit zero-padded rendering of a number below 100. -/
def pad2 (n : Nat) : String := if n < 10 then "0" ++ toString n else toString n

/-- JavaScript `toFixed(2)` on the (always whole-dollar) money values this
catalog produces. -/
def money (q : ℤ) : String :=
  let cents := (q * 100).toNat
  toString (cents / 100) ++ "." ++ pad2 (cents % 100)

/-- Interpolation of a possibly-null string (`null` renders as "null"). -/
def optStr : Option String → String
  | some s => s
  | none => "null"

/-- `formatOrderProgress`. -/
def formatOrderProgress (order : Order) : String :=
  let lines := order.items.map (fun i =>
    "• " ++ toString i.quantity ++ " dozen " ++ i.flavor ++ ": $" ++
      money ((i.quantity : ℤ) * i.price))
  "**Current Order:**\n" ++ String.intercalate "\n" lines ++
    "\n\n**Total: $" ++ money order.total ++ "**"

/-- `formatOrderSummary`. -/
def formatOrderSummary (order : Order) : String :=
  let items := String.intercalate ", "
    (order.items.map (fun i => toString i.quantity ++ " dozen " ++ i.flavor))
  "**Order:** " ++ items ++ "\n**Total:** $" ++ money order.total

/-- `formatFinalConfirmation`. -/
def formatFinalConfirmation (order : Order) : String :=
  let lines := order.items.map (fun i =>
    "• " ++ toString i.quantity ++ " dozen " ++ i.flavor ++ ": $" ++
      money ((i.quantity : ℤ) * i.price))
  "**Order Summary**\n" ++
    "───────────────\n" ++
    "**Name:** " ++ optStr order.customerName ++ "\n" ++
    "**Email:** " ++ optStr order.customerEmail ++ "\n\n" ++
    "**Items:**\n" ++ String.intercalate "\n" lines ++
    "\n\n**Total: $" ++ money order.total ++ "**"

/-- The formatted catalog list shown from the IDLE order branch
(built over `getAvailableProducts`, as in the source). -/
def productListStr : String :=
  String.intercalate "\n" (getAvailableProducts.map (fun p =>
    "• " ++ p.name ++ " - $" ++ money p.price ++ "/" ++ p.unit))

/-- The confirmation message assembled in `handleConfirming` after
`processOrder` (order id from the sheet result, total and name from the
order captured before the clear). -/
def confirmedResponse (env : SheetEnv) (freshId : String) (order : Order) : String :=
  let result := processOrder env freshId order
  "Order confirmed!\n\n**Order ID:** " ++ result.orderId ++
    "\n**Total:** $" ++ money order.total ++
    "\n\nThank you for your order, " ++ optStr order.customerName ++
    "! Check our Instagram @ewe_cookies for pickup information.\n\n" ++
    "Is there anything else I can help with?"

/-! ### State handlers -/

/-- What a state handler produces: the response text, the next state, and
the (possibly mutated) order. -/
structure HRes where
  response : String
  newState : CState
  order : Order
  deriving DecidableEq, Repr

/-- `handleIdle`: greeting, order extraction (falling back to the catalog
display), or the free-form AI call — which is the only path that can
throw. -/
def handleIdle (o : Oracles) (message : String) (session : Session) (intent : String) :
    Except Unit HRes :=
  if intent = "GREETING" then
    .ok ⟨"Hello! Welcome to Sweet Delights Bakery! I can help you place an order or answer questions. We have " ++
      toString getAvailableProducts.length ++
      " delicious cookie flavors available. What can I do for you?", .idle, session.order⟩
  else if intent = "ORDER" || intent = "ORDER_ITEM" then
    let extracted := extractOrderDetails o message
    if extracted.length > 0 then
      let order2 := addItemsToOrder session.order extracted
      .ok ⟨formatOrderProgress order2 ++
        "\n\nWould you like to add more? Say " ++ apos ++ "done" ++ apos ++
        " when ready to checkout.", .collectingOrder, order2⟩
    else
      .ok ⟨"I" ++ apos ++ "d love to help you order! Here" ++ apos ++
        "s what we have:\n\n" ++ productListStr ++
        "\n\nJust tell me what you" ++ apos ++ "d like (e.g., \"2 dozen chocolate chip\")",
        .collectingOrder, session.order⟩
  else
    match o.aiChat with
    | .ok resp => .ok ⟨resp, .idle, session.order⟩
    | .error e => .error e

/-- The done/checkout keywords of `handleCollectingOrder`. -/
def doneWords : List String :=
  ["done", "checkout", "that" ++ apos ++ "s all", "proceed", "finish"]

/-- `handleCollectingOrder`: checkout keywords (requiring a non-empty
order), cancellation, then item extraction. -/
def handleCollectingOrder (o : Oracles) (message : String) (session : Session)
    (intent : String) : HRes :=
  let lower := jsToLower message
  if doneWords.any (fun w => jsIncludes lower w) || intent = "CONFIRM" then
    if session.order.items.length = 0 then
      ⟨"You haven" ++ apos ++ "t added any items yet! What would you like to order?",
        .collectingOrder, session.order⟩
    else
      ⟨formatOrderSummary session.order ++ "\n\nGreat! What" ++ apos ++ "s your name?",
        .collectingName, session.order⟩
  else if intent = "CANCEL" || jsIncludes lower "cancel" then
    ⟨"Order cancelled. Is there anything else I can help with?", .idle, emptyOrder⟩
  else
    let extracted := extractOrderDetails o message
    if extracted.length > 0 then
      let order2 := addItemsToOrder session.order extracted
      ⟨"Added!\n\n" ++ formatOrderProgress order2 ++
        "\n\nAnything else? Say " ++ apos ++ "done" ++ apos ++ " to checkout.",
        .collectingOrder, order2⟩
    else
      ⟨"I didn" ++ apos ++ "t catch that. Please specify flavor and quantity (e.g., " ++
        apos ++ "2 dozen chocolate chip" ++ apos ++ ")", .collectingOrder, session.order⟩

/-- `handleCollectingName`: any trimmed text of length ≥ 2 is stored as the
customer name. -/
def handleCollectingName (message : String) (session : Session) : HRes :=
  let name := jsTrim message
  if name.length < 2 then
    ⟨"Please enter your full name.", .collectingName, session.order⟩
  else
    ⟨"Thanks, " ++ name ++ "! What" ++ apos ++ "s your email address?",
      .collectingEmail, { session.order with customerName := some name }⟩

/-- Character class for the regex `[^\s@]`. -/
def notAtSpace (c : Char) : Bool := !(isSpaceC c) && !(c = '@')

/-- Body of `/^[^\s@]+@[^\s@]+\.[^\s@]+$/`. -/
def emailRE : RE :=
  reSeq [.plusC notAtSpace, .lit "@", .plusC notAtSpace, .lit ".", .plusC notAtSpace]

/-- `handleCollectingEmail`: validate, store the lowercased email, and show
the final confirmation prompt. -/
def handleCollectingEmail (message : String) (session : Session) : HRes :=
  let email := jsToLower (jsTrim message)
  if !(reFull emailRE email) then
    ⟨"That doesn" ++ apos ++ "t look like a valid email. Please try again.",
      .collectingEmail, session.order⟩
  else
    let order2 := { session.order with customerEmail := some email }
    ⟨formatFinalConfirmation order2 ++
      "\n\nType " ++ apos ++ "confirm" ++ apos ++ " to place your order, " ++ apos ++
      "modify" ++ apos ++ " to change it, or " ++ apos ++ "cancel" ++ apos ++ " to cancel.",
      .confirmingOrder, order2⟩

/-- The confirmation keyword list of `handleConfirming`, checked by
substring containment. -/
def confirmWords : List String :=
  ["confirm", "yes", "yea", "yeah", "yep", "sure", "ok", "okay", "place order", "submit"]

/-- `handleConfirming`: substring confirmation first (finalize through
`processOrder`, then clear the order unconditionally), then
modify/change, then cancellation, then a reprompt. -/
def handleConfirming (o : Oracles) (message : String) (session : Session)
    (intent : String) : HRes :=
  let lower := jsToLower message
  let isConfirm := intent = "CONFIRM" || confirmWords.any (fun w => jsIncludes lower w)
  if isConfirm then
    ⟨confirmedResponse o.sheetEnv o.freshId session.order, .idle, emptyOrder⟩
  else if jsIncludes lower "modify" || jsIncludes lower "change" then
    ⟨formatOrderProgress session.order ++ "\n\nWhat would you like to change?",
      .collectingOrder, session.order⟩
  else if intent = "CANCEL" || jsIncludes lower "cancel" then
    ⟨"Order cancelled. Is there anything else I can help with?", .idle, emptyOrder⟩
  else
    ⟨"Please type " ++ apos ++ "confirm" ++ apos ++ ", " ++ apos ++ "modify" ++ apos ++
      ", or " ++ apos ++ "cancel" ++ apos ++ ".", .confirmingOrder, session.order⟩

/-- `processMessage` from `lib/conversation.js`: push the user turn, run
the quick classifier, dispatch on the current state, then commit the new
state and push the assistant turn.  There is no `try`/`catch` here: a
throwing handler propagates (`Except.error`), leaving the state
uncommitted. -/
def processMessage (o : Oracles) (message : String) (session : Session) :
    Except Unit (String × Session) :=
  let s1 := { session with history := session.history ++ [Msg.mk "user" message] }
  let quickIntent := classifyIntentQuick message
  let hres : Except Unit HRes :=
    match s1.state with
    | .idle => handleIdle o message s1 quickIntent
    | .collectingOrder => .ok (handleCollectingOrder o message s1 quickIntent)
    | .collectingName => .ok (handleCollectingName message s1)
    | .collectingEmail => .ok (handleCollectingEmail message s1)
    | .confirmingOrder => .ok (handleConfirming o message s1 quickIntent)
    | .processing => .ok ⟨"Something went wrong. How can I help you?", .idle, s1.order⟩
  match hres with
  | .error e => .error e
  | .ok r =>
    .ok (r.response,
      { s1 with
          state := r.newState
          order := r.order
          history := s1.history ++ [Msg.mk "assistant" r.response] })

/-! ### The HTTP route around the engine (`app/api/chat/route.js`) -/

structure RouteResponse where
  success : Bool
  response : String
  session : Option Session
  deriving DecidableEq, Repr

/-- The fixed apology returned by the route's `catch`. -/
def genericApology : String :=
  "I" ++ apos ++ "m sorry, something went wrong. Please try again."

/-- The `POST` handler: trim the message, run `processMessage`, and catch
any propagated failure, converting it into a generic apology with no
session echoed back (the client keeps its previous session state). -/
def routePOST (o : Oracles) (message : String) (session : Session) : RouteResponse :=
  match processMessage o (jsTrim message) session with
  | .ok (resp, sess) => ⟨true, resp, some sess⟩
  | .error _ => ⟨false, genericApology, none⟩

/-! ### Rate limiter

Modelled from the spec: the Rate Limiter component (spec section 4.5) — its
implementation (per-session counters of AI-fallback invocations with
`check`/`increment` against a fixed ceiling, and the engine's
short-circuit to a fixed "too many requests" response) is not among the
files under `src/`; only a caller of the usage-statistics accessor
(`app/api/stats/route.js`) is present.  The definitions below follow the
spec's contract verbatim: `check(sessionId) → {allowed, remaining}`,
`increment(sessionId)` called exactly once per accepted invocation, and no
increment and no AI call once `allowed` is false. -/

structure RateLimiter where
  ceiling : Nat
  counts : List (String × Nat)
  deriving DecidableEq, Repr

/-- Current count for a session (0 when absent). -/
def rlCount (rl : RateLimiter) (sid : String) : Nat :=
  match rl.counts.find? (fun kv => kv.1 = sid) with
  | some kv => kv.2
  | none => 0

structure CheckResult where
  allowed : Bool
  remaining : Nat
  deriving DecidableEq, Repr

/-- Modelled from the spec: `check(sessionId) → {allowed, remaining}`
against the fixed per-session ceiling. -/
def check (rl : RateLimiter) (sid : String) : CheckResult :=
  ⟨rlCount rl sid < rl.ceiling, rl.ceiling - rlCount rl sid⟩

/-- Modelled from the spec: `increment(sessionId)`. -/
def increment (rl : RateLimiter) (sid : String) : RateLimiter :=
  { rl with counts := (sid, rlCount rl sid + 1) :: rl.counts.filter (fun kv => !(kv.1 = sid)) }

/-- Modelled from the spec: the fixed "too many requests" response. -/
def tooManyResponse : String :=
  "Too many requests. Please finish your current order or try again later."

/-- Modelled from the spec: the Conversation Engine's gate around one
AI-fallback invocation — when `check` allows, the AI response is used and
the counter incremented; otherwise the fixed response is returned, the
counter is left untouched, and the AI is not invoked (third component
records whether the AI was called). -/
def aiGate (rl : RateLimiter) (sid : String) (aiResponse : String) :
    String × RateLimiter × Bool :=
  if (check rl sid).allowed then (aiResponse, increment rl sid, true)
  else (tooManyResponse, rl, false)

/-- `n` successive gated requests for the same session. -/
def iterGate (rl : RateLimiter) (sid : String) (aiResponse : String) : Nat → RateLimiter
  | 0 => rl
  | n + 1 => (aiGate (iterGate rl sid aiResponse n) sid aiResponse).2.1

/-! ### Verification helpers -/

/-- The order invariant: the stored total equals the sum of
quantity × price over the lines. -/
def invO (ord : Order) : Prop := ord.total = sumLines ord.items

/-- The merge keys of an order's lines: lowercased flavor names. -/
def keysOf (items : List OrderItem) : List String :=
  items.map (fun i => jsToLower i.flavor)

/-- The flavor names of a list of extracted items. -/
def flavorsOf (l : List XItem) : List String := l.map (fun i => i.flavor)

/-- A benign oracle: the config catalog, an idle AI, a configured sheet
that accepts the append. -/
def o0 : Oracles := ⟨configProducts, [], .ok "We are open 8am-6pm.", .appendOk, "ORD-OK"⟩

/-- A hostile oracle: the AI chat call throws, and the sheet append
fails. -/
def oFail : Oracles := ⟨configProducts, [], .error (), .appendFail, "ORD-FAIL"⟩

/-- The session used by the C1 witness, and the result `processMessage`
produces for the greeting "hi" on it. -/
def w1greet : String :=
  "Hello! Welcome to Sweet Delights Bakery! I can help you place an order or answer questions. We have 6 delicious cookie flavors available. What can I do for you?"

def w1res : String × Session :=
  (w1greet, ⟨"w1", .idle, [Msg.mk "user" "hi", Msg.mk "assistant" w1greet], emptyOrder⟩)

/-- A complete order sitting in the confirmation state. -/
def fullOrder : Order :=
  ⟨[⟨"Chocolate Chip", 2, 18⟩], some "Jo", some "jo@example.com", 36⟩

def sConfirm : Session := ⟨"sc", .confirmingOrder, [], fullOrder⟩

def sName : Session := ⟨"sn", .collectingName, [], emptyOrder⟩

/-! ### C1 — the running total always equals the sum over the lines -/

theorem addItemsToOrder_invO (ord : Order) (rawItems : List XItem) :
    invO (addItemsToOrder ord rawItems) := rfl

theorem emptyOrder_invO : invO emptyOrder := rfl

theorem handleIdle_invO (o : Oracles) (m : String) (s : Session) (i : String) (r : HRes)
    (hs : invO s.order) (h : handleIdle o m s i = .ok r) : invO r.order := by
  simp only [handleIdle] at h
  split at h
  · injection h with h2
    subst h2
    exact hs
  · split at h
    · split at h
      · injection h with h2
        subst h2
        exact addItemsToOrder_invO _ _
      · injection h with h2
        subst h2
        exact hs
    · split at h
      · injection h with h2
        subst h2
        exact hs
      · exact Except.noConfusion h

theorem handleCollectingOrder_invO (o : Oracles) (m : String) (s : Session) (i : String)
    (hs : invO s.order) : invO (handleCollectingOrder o m s i).order := by
  simp only [handleCollectingOrder]
  split
  · split
    · exact hs
    · exact hs
  · split
    · exact emptyOrder_invO
    · split
      · exact addItemsToOrder_invO _ _
      · exact hs

theorem handleCollectingName_invO (m : String) (s : Session) (hs : invO s.order) :
    invO (handleCollectingName m s).order := by
  simp only [handleCollectingName]
  split
  · exact hs
  · exact hs

theorem handleCollectingEmail_invO (m : String) (s : Session) (hs : invO s.order) :
    invO (handleCollectingEmail m s).order := by
  simp only [handleCollectingEmail]
  split
  · exact hs
  · exact hs

theorem handleConfirming_invO (o : Oracles) (m : String) (s : Session) (i : String)
    (hs : invO s.order) : invO (handleConfirming o m s i).order := by
  simp only [handleConfirming]
  split
  · exact emptyOrder_invO
  · split
    · exact hs
    · split
      · exact emptyOrder_invO
      · exact hs

/-- C1: after any mutation of the order performed while processing a
message — adding extracted items, clearing on cancel, clearing on
confirmation — the order's total equals the sum of quantity × price over
its lines.  First conjunct: `addItemsToOrder` recomputes the total from
the mutated lines unconditionally.  Second conjunct: a full
`processMessage` step preserves the invariant for every state, message
and collaborator outcome. -/
theorem total_invariant :
    (∀ (ord : Order) (rawItems : List XItem), invO (addItemsToOrder ord rawItems)) ∧
    (∀ (o : Oracles) (m : String) (s : Session) (r : String × Session),
      invO s.order → processMessage o m s = .ok r → invO r.2.order) := by
  refine ⟨fun ord rawItems => addItemsToOrder_invO ord rawItems, ?_⟩
  intro o m s r hs h
  simp only [processMessage] at h
  split at h
  · exact Except.noConfusion h
  · rename_i r0 heq
    injection h with h2
    subst h2
    split at heq
    · exact handleIdle_invO _ _ _ _ _ hs heq
    · injection heq with h3
      subst h3
      exact handleCollectingOrder_invO _ _ _ _ hs
    · injection heq with h3
      subst h3
      exact handleCollectingName_invO _ _ hs
    · injection heq with h3
      subst h3
      exact handleCollectingEmail_invO _ _ hs
    · injection heq with h3
      subst h3
      exact handleConfirming_invO _ _ _ _ hs
    · injection heq with h3
      subst h3
      exact hs

theorem total_invariant_witness :
    invO (createSession "w1").order ∧ invO w1res.2.order :=
  ⟨rfl, total_invariant.2 o0 "hi" (createSession "w1") w1res rfl rfl⟩

/-! ### C4 — at most one line per canonical flavor; repeat additions merge -/

theorem bumpFirst_keysOf (l : List OrderItem) (key : String) (q : Nat) :
    keysOf (bumpFirst l key q) = keysOf l := by
  induction l with
  | nil => rfl
  | cons i rest ih =>
    simp only [bumpFirst]
    split
    · rfl
    · simp only [keysOf, List.map_cons] at ih ⊢
      rw [ih]

theorem mergeLine_nodupKeys (items : List OrderItem) (raw : XItem)
    (h : (keysOf items).Nodup) : (keysOf (mergeLine items raw)).Nodup := by
  unfold mergeLine
  cases getProductByName raw.flavor with
  | none => exact h
  | some product =>
    simp only
    split
    · rw [bumpFirst_keysOf]
      exact h
    · rename_i hany
      have hnotmem : jsToLower product.name ∉ keysOf items := by
        intro hmem
        obtain ⟨i, hi, hkey⟩ := List.mem_map.mp hmem
        have h2 : items.any (fun j => jsToLower j.flavor = jsToLower product.name) = true :=
          List.any_eq_true.mpr ⟨i, hi, by simpa using hkey⟩
        rw [h2] at hany
        exact hany rfl
      have : keysOf (items ++ [⟨product.name, qtyOrOne raw.quantity, product.price⟩]) =
          keysOf items ++ [jsToLower product.name] := by
        simp [keysOf]
      rw [this]
      exact List.Nodup.append h (List.nodup_singleton _)
        (by simpa [List.disjoint_singleton] using hnotmem)

theorem foldl_mergeLine_nodupKeys (rawItems : List XItem) :
    ∀ items : List OrderItem, (keysOf items).Nodup →
      (keysOf (rawItems.foldl mergeLine items)).Nodup := by
  induction rawItems with
  | nil => exact fun items h => h
  | cons raw rest ih =>
    intro items h
    exact ih (mergeLine items raw) (mergeLine_nodupKeys items raw h)

/-- C4: an order never holds two lines for the same canonical flavor.
First conjunct: `addItemsToOrder` preserves distinctness of the
(case-insensitive) flavor keys of the lines, merging repeat additions
instead of appending.  Second conjunct: adding "chocolate chip" with
quantity 2 and then quantity 3 to an empty order produces the single line
(Chocolate Chip, 5) — not two lines. -/
theorem one_line_per_flavor :
    (∀ (ord : Order) (rawItems : List XItem), (keysOf ord.items).Nodup →
      (keysOf (addItemsToOrder ord rawItems).items).Nodup) ∧
    addItemsToOrder (addItemsToOrder emptyOrder [⟨"chocolate chip", 2⟩]) [⟨"chocolate chip", 3⟩] =
      ⟨[⟨"Chocolate Chip", 5, 18⟩], none, none, 90⟩ :=
  ⟨fun ord rawItems h => foldl_mergeLine_nodupKeys rawItems ord.items h, rfl⟩

theorem one_line_per_flavor_witness :
    (keysOf emptyOrder.items).Nodup ∧
    (keysOf (addItemsToOrder emptyOrder [⟨"cc", 4⟩]).items).Nodup :=
  ⟨List.nodup_nil, one_line_per_flavor.1 emptyOrder [⟨"cc", 4⟩] List.nodup_nil⟩

/-! ### C5 — the "2 dozen chocolate chip" scenario, locally extracted -/

/-- C5: in IDLE, the message "2 dozen chocolate chip" (with the catalog
holding Chocolate Chip at 18.00 per dozen) adds the single line
(Chocolate Chip, 2, 18.00), sets the total to 36.00, moves the session to
COLLECTING_ORDER — and consults only the local extraction pass: the
result is the same for every AI-collaborator outcome (`aiItems`,
`aiChat`) since the quantification covers them all. -/
theorem scenario_two_dozen_chocolate_chip (sid : String) (aiItems : List XItem)
    (aiChat : Except Unit String) (env : SheetEnv) (fid : String) :
    extractOrderDetailsLocal "2 dozen chocolate chip" configProducts =
      [⟨"Chocolate Chip", 2⟩] ∧
    processMessage ⟨configProducts, aiItems, aiChat, env, fid⟩ "2 dozen chocolate chip"
        (createSession sid) =
      .ok ("**Current Order:**\n• 2 dozen Chocolate Chip: $36.00\n\n**Total: $36.00**" ++
          "\n\nWould you like to add more? Say " ++ apos ++ "done" ++ apos ++
          " when ready to checkout.",
        ⟨sid, .collectingOrder,
          [Msg.mk "user" "2 dozen chocolate chip",
           Msg.mk "assistant"
             ("**Current Order:**\n• 2 dozen Chocolate Chip: $36.00\n\n**Total: $36.00**" ++
              "\n\nWould you like to add more? Say " ++ apos ++ "done" ++ apos ++
              " when ready to checkout.")],
          ⟨[⟨"Chocolate Chip", 2, 18⟩], none, none, 36⟩⟩) := by
  refine ⟨rfl, ?_⟩
  have hx : extractOrderDetails ⟨configProducts, aiItems, aiChat, env, fid⟩
      "2 dozen chocolate chip" = [⟨"Chocolate Chip", 2⟩] := rfl
  have hc : classifyIntentQuick "2 dozen chocolate chip" = "ORDER_ITEM" := rfl
  have ha : addItemsToOrder emptyOrder [(⟨"Chocolate Chip", 2⟩ : XItem)] =
      ⟨[⟨"Chocolate Chip", 2, 18⟩], none, none, 36⟩ := rfl
  have hf : formatOrderProgress (⟨[⟨"Chocolate Chip", 2, 18⟩], none, none, 36⟩ : Order) =
      "**Current Order:**\n• 2 dozen Chocolate Chip: $36.00\n\n**Total: $36.00**" := rfl
  simp only [processMessage, handleIdle, hc, hx, createSession, ha, hf]
  simp only [String.reduceEq, reduceIte, decide_True, decide_False, Bool.or_true, Bool.true_or,
    List.length_cons, List.length_nil, gt_iff_lt, Nat.zero_lt_succ, if_true, if_false,
    reduceCtorEq]
  rfl

/-! ### C2 — what CANCEL does in each state -/

/-- C2 (counterexample): in COLLECTING_NAME the message "cancel" is not a
cancellation — it is stored as the customer name and the session moves to
COLLECTING_EMAIL, so CANCEL does not return to IDLE with an empty order
from every state. -/
theorem cancel_in_collecting_name_counterexample :
    processMessage o0 "cancel" sName =
      .ok ("Thanks, cancel! What" ++ apos ++ "s your email address?",
        ⟨"sn", .collectingEmail,
          [Msg.mk "user" "cancel",
           Msg.mk "assistant" ("Thanks, cancel! What" ++ apos ++ "s your email address?")],
          ⟨[], some "cancel", none, 0⟩⟩) ∧
    CState.collectingEmail ≠ CState.idle ∧
    (⟨[], some "cancel", none, 0⟩ : Order) ≠ emptyOrder :=
  ⟨rfl, by decide, by decide⟩

/-- C2 (amended): a CANCEL message clears the order and returns to IDLE
from COLLECTING_ORDER and from CONFIRMING_ORDER (in IDLE the session
stays in IDLE on the FAQ path with its order untouched; in
COLLECTING_NAME the text is stored as the customer name, and in
COLLECTING_EMAIL it is rejected as an invalid email). -/
theorem cancel_clears_order_amended (o : Oracles) (s : Session)
    (h : s.state = CState.collectingOrder ∨ s.state = CState.confirmingOrder) :
    processMessage o "cancel" s =
      .ok ("Order cancelled. Is there anything else I can help with?",
        ⟨s.id, .idle,
          s.history ++ [Msg.mk "user" "cancel"] ++
            [Msg.mk "assistant" "Order cancelled. Is there anything else I can help with?"],
          emptyOrder⟩) := by
  obtain ⟨id, st, hist, ord⟩ := s
  simp only at h
  rcases h with h | h
  · subst h
    rfl
  · subst h
    rfl

theorem cancel_clears_order_witness :
    processMessage o0 "cancel" ⟨"w2", .collectingOrder, [], fullOrder⟩ =
      .ok ("Order cancelled. Is there anything else I can help with?",
        ⟨"w2", .idle,
          [Msg.mk "user" "cancel",
           Msg.mk "assistant" "Order cancelled. Is there anything else I can help with?"],
          emptyOrder⟩) :=
  cancel_clears_order_amended o0 ⟨"w2", .collectingOrder, [], fullOrder⟩ (Or.inl rfl)

/-! ### C10 — substring confirmation wins over everything in CONFIRMING_ORDER -/

/-- C10: in CONFIRMING_ORDER, confirmation is detected by substring
containment of a confirm word and is checked before the modify and cancel
checks: every message whose lowercased text contains "ok" — including
"cookie", and messages that also contain "cancel" — finalizes the order
(state IDLE, order cleared, confirmation response), for every persistence
outcome. -/
theorem ok_substring_confirms (o : Oracles) (m : String) (s : Session)
    (hst : s.state = CState.confirmingOrder)
    (hok : jsIncludes (jsToLower m) "ok" = true) :
    processMessage o m s =
      .ok (confirmedResponse o.sheetEnv o.freshId s.order,
        ⟨s.id, .idle,
          s.history ++ [Msg.mk "user" m] ++
            [Msg.mk "assistant" (confirmedResponse o.sheetEnv o.freshId s.order)],
          emptyOrder⟩) := by
  obtain ⟨id, st, hist, ord⟩ := s
  simp only at hst
  subst hst
  have hany : (confirmWords.any fun w => jsIncludes (jsToLower m) w) = true :=
    List.any_eq_true.mpr ⟨"ok", by simp [confirmWords], hok⟩
  simp only [processMessage, handleConfirming, hany, Bool.or_true, if_true]

theorem ok_substring_confirms_witness :
    jsIncludes (jsToLower "cancel my cookie order") "ok" = true ∧
    processMessage o0 "cancel my cookie order" sConfirm =
      .ok (confirmedResponse o0.sheetEnv o0.freshId sConfirm.order,
        ⟨"sc", .idle,
          [Msg.mk "user" "cancel my cookie order",
           Msg.mk "assistant" (confirmedResponse o0.sheetEnv o0.freshId sConfirm.order)],
          emptyOrder⟩) :=
  ⟨by decide, ok_substring_confirms o0 "cancel my cookie order" sConfirm rfl (by decide)⟩

/-! ### C3 — persistence failure does not keep the order for a retry -/

/-- C3 (counterexample): with the persistence collaborator failing, the
user's "confirm" still clears the order, moves the session to IDLE (not
CONFIRMING_ORDER) and reports the order as confirmed with a generated
order id — the sheet append's failure (`success := false`) is never
consulted. -/
theorem persistence_failure_counterexample :
    recordOrderToSheets SheetEnv.appendFail "ORD-FAIL" fullOrder =
      ⟨false, "ORD-FAIL", false⟩ ∧
    processMessage oFail "confirm" sConfirm =
      .ok (confirmedResponse SheetEnv.appendFail "ORD-FAIL" fullOrder,
        ⟨"sc", .idle,
          [Msg.mk "user" "confirm",
           Msg.mk "assistant" (confirmedResponse SheetEnv.appendFail "ORD-FAIL" fullOrder)],
          emptyOrder⟩) ∧
    CState.idle ≠ CState.confirmingOrder ∧ emptyOrder ≠ fullOrder :=
  ⟨rfl, rfl, by decide, by decide⟩

/-- C3 (amended): `recordOrderToSheets` swallows the persistence failure
and still returns a generated order id; `processOrder` reports success
unconditionally; so on a confirmation the engine always clears the order,
moves to IDLE and reports the order as confirmed — even when the append
failed. -/
theorem persistence_failure_amended (o : Oracles) (s : Session)
    (henv : o.sheetEnv = SheetEnv.appendFail) (hst : s.state = CState.confirmingOrder) :
    (recordOrderToSheets o.sheetEnv o.freshId s.order).success = false ∧
    (processOrder o.sheetEnv o.freshId s.order).success = true ∧
    processMessage o "confirm" s =
      .ok (confirmedResponse o.sheetEnv o.freshId s.order,
        ⟨s.id, .idle,
          s.history ++ [Msg.mk "user" "confirm"] ++
            [Msg.mk "assistant" (confirmedResponse o.sheetEnv o.freshId s.order)],
          emptyOrder⟩) := by
  refine ⟨by rw [henv]; rfl, rfl, ?_⟩
  obtain ⟨id, st, hist, ord⟩ := s
  simp only at hst
  subst hst
  rfl

theorem persistence_failure_witness :
    (recordOrderToSheets oFail.sheetEnv oFail.freshId sConfirm.order).success = false ∧
    processMessage oFail "confirm" sConfirm =
      .ok (confirmedResponse oFail.sheetEnv oFail.freshId sConfirm.order,
        ⟨"sc", .idle,
          [Msg.mk "user" "confirm",
           Msg.mk "assistant" (confirmedResponse oFail.sheetEnv oFail.freshId sConfirm.order)],
          emptyOrder⟩) :=
  ⟨(persistence_failure_amended oFail sConfirm rfl rfl).1,
    (persistence_failure_amended oFail sConfirm rfl rfl).2.2⟩

/-! ### C6 — who produces the apology on a collaborator failure -/

/-- C6 (counterexample): when the AI collaborator fails on an UNKNOWN
message in IDLE, the rule-based `processMessage` does not return an
apology — it propagates the failure to its caller. -/
theorem processMessage_propagates_counterexample :
    classifyIntentQuick "asdkjfh" = "UNKNOWN" ∧
    processMessage oFail "asdkjfh" (createSession "c6") = .error () :=
  ⟨rfl, rfl⟩

/-- C6 (amended): the rule-based `processMessage` propagates handler/AI
failures; the enclosing API route catches them and returns the fixed
generic apology with `success := false` and no session echoed back, so
the caller retains its previous session state. -/
theorem route_apology_amended (o : Oracles) (m : String) (s : Session)
    (h : processMessage o (jsTrim m) s = .error ()) :
    routePOST o m s = ⟨false, genericApology, none⟩ := by
  unfold routePOST
  rw [h]

theorem route_apology_witness :
    routePOST oFail "asdkjfh" (createSession "w6") = ⟨false, genericApology, none⟩ :=
  route_apology_amended oFail "asdkjfh" (createSession "w6") rfl

/-! ### C9 — the spec-modelled per-session rate limiter -/

theorem rlCount_increment (rl : RateLimiter) (sid : String) :
    rlCount (increment rl sid) sid = rlCount rl sid + 1 := by
  simp [increment, rlCount, List.find?]

theorem iterGate_ceiling (rl : RateLimiter) (sid a : String) :
    ∀ k, (iterGate rl sid a k).ceiling = rl.ceiling := by
  intro k
  induction k with
  | zero => rfl
  | succ n ih =>
    simp only [iterGate, aiGate]
    split
    · simpa [increment] using ih
    · exact ih

theorem iterGate_count (ceilN : Nat) (sid a : String) :
    ∀ k, k ≤ ceilN → rlCount (iterGate ⟨ceilN, []⟩ sid a k) sid = k := by
  intro k
  induction k with
  | zero => intro _; rfl
  | succ n ih =>
    intro hle
    have hn := ih (Nat.le_of_succ_le hle)
    have hallow : (check (iterGate ⟨ceilN, []⟩ sid a n) sid).allowed = true := by
      simp only [check, iterGate_ceiling, hn]
      exact decide_eq_true (Nat.lt_of_succ_le hle)
    simp only [iterGate, aiGate, hallow, if_true]
    rw [rlCount_increment, hn]

/-- C9 (spec-modelled): with a per-session ceiling of N and a fresh
counter, each of the first N gated requests is allowed; after exactly N
accepted invocations the count is N, `check` returns `allowed := false`
(`remaining := 0`) for the next request, and the gate short-circuits to
the fixed "too many requests" response, leaves the counter unchanged (no
`increment`), and does not invoke the AI (third component `false`,
response independent of the AI's answer). -/
theorem rate_limiter_ceiling (ceilN : Nat) (sid aiResponse : String) :
    (∀ k, k < ceilN →
      (check (iterGate ⟨ceilN, []⟩ sid aiResponse k) sid).allowed = true) ∧
    rlCount (iterGate ⟨ceilN, []⟩ sid aiResponse ceilN) sid = ceilN ∧
    check (iterGate ⟨ceilN, []⟩ sid aiResponse ceilN) sid = ⟨false, 0⟩ ∧
    aiGate (iterGate ⟨ceilN, []⟩ sid aiResponse ceilN) sid aiResponse =
      (tooManyResponse, iterGate ⟨ceilN, []⟩ sid aiResponse ceilN, false) := by
  have hcount := iterGate_count ceilN sid aiResponse ceilN (Nat.le_refl ceilN)
  have hcheck : check (iterGate ⟨ceilN, []⟩ sid aiResponse ceilN) sid = ⟨false, 0⟩ := by
    simp [check, iterGate_ceiling, hcount, Nat.lt_irrefl, Nat.sub_self]
  refine ⟨?_, hcount, hcheck, ?_⟩
  · intro k hk
    have hc := iterGate_count ceilN sid aiResponse k (Nat.le_of_lt hk)
    simp only [check, iterGate_ceiling, hc]
    exact decide_eq_true hk
  · simp [aiGate, hcheck]

theorem rate_limiter_ceiling_witness :
    (check (iterGate ⟨2, []⟩ "w9" "resp" 0) "w9").allowed = true :=
  (rate_limiter_ceiling 2 "w9" "resp").1 0 (by decide)

/-! ### C7 — what the extractor guarantees about its items -/

theorem addXItem_flavors (l : List XItem) (f : String) (q : Nat) :
    ∀ g ∈ flavorsOf (addXItem l f q), g ∈ flavorsOf l ∨ g = f := by
  induction l with
  | nil =>
    intro g hg
    simp only [addXItem, flavorsOf, List.map_cons, List.map_nil, List.mem_singleton] at hg
    exact Or.inr hg
  | cons i rest ih =>
    intro g hg
    simp only [addXItem] at hg
    split at hg
    · simp only [flavorsOf, List.map_cons, List.mem_cons] at hg ⊢
      rcases hg with hg | hg
      · exact Or.inl (Or.inl hg)
      · exact Or.inl (Or.inr hg)
    · simp only [flavorsOf, List.map_cons, List.mem_cons] at hg ⊢
      rcases hg with hg | hg
      · exact Or.inl (Or.inl hg)
      · rcases ih g hg with h | h
        · exact Or.inl (Or.inr h)
        · exact Or.inr h

theorem tryPatterns_flavors (lower : String) (product : Product) :
    ∀ (pats : List String) (items : List XItem),
      ∀ g ∈ flavorsOf (tryPatterns lower product pats items),
        g ∈ flavorsOf items ∨ g = product.name := by
  intro pats
  induction pats with
  | nil => exact fun items g hg => Or.inl hg
  | cons pat rest ih =>
    intro items g hg
    simp only [tryPatterns] at hg
    split at hg
    · exact addXItem_flavors items product.name _ g hg
    · split at hg
      · exact addXItem_flavors items product.name _ g hg
      · split at hg
        · split at hg
          · exact Or.inl hg
          · simp only [flavorsOf, List.map_append, List.map_cons, List.map_nil,
              List.mem_append, List.mem_singleton] at hg
            rcases hg with hg | hg
            · exact Or.inl hg
            · exact Or.inr hg
        · exact ih items g hg

theorem foldl_extract_flavors (lower : String) :
    ∀ (ps : List Product) (acc : List XItem),
      ∀ g ∈ flavorsOf (ps.foldl
        (fun items product =>
          tryPatterns lower product (jsToLower product.name :: aliasKeysFor product.name) items)
        acc),
      g ∈ flavorsOf acc ∨ ∃ p ∈ ps, g = p.name := by
  intro ps
  induction ps with
  | nil => exact fun acc g hg => Or.inl hg
  | cons p rest ih =>
    intro acc g hg
    simp only [List.foldl_cons] at hg
    rcases ih _ g hg with h | h
    · rcases tryPatterns_flavors lower p _ acc g h with h2 | h2
      · exact Or.inl h2
      · exact Or.inr ⟨p, List.mem_cons_self p rest, h2⟩
    · obtain ⟨q, hq, hq2⟩ := h
      exact Or.inr ⟨q, List.mem_cons_of_mem p hq, hq2⟩

/-- C7 (counterexample): the local extractor accepts an explicit zero
quantity — "0 chocolate chip" yields the single item
(Chocolate Chip, 0), so the extract contract's "integer ≥ 1" fails. -/
theorem zero_quantity_counterexample :
    extractOrderDetailsLocal "0 chocolate chip" configProducts = [⟨"Chocolate Chip", 0⟩] ∧
    ¬(∀ item ∈ extractOrderDetailsLocal "0 chocolate chip" configProducts,
        1 ≤ item.quantity) :=
  ⟨rfl, by decide⟩

/-- C7 (amended): every item produced by the local extraction pass names a
flavor recognized by the catalog (entries for unrecognized flavors are
omitted — only canonical product names are ever emitted), and its
quantity is a non-negative integer; the lower bound is 0, not 1, since an
explicit "0" in the message is accepted verbatim. -/
theorem extract_flavors_recognized_amended (message : String) (products : List Product)
    (item : XItem) (h : item ∈ extractOrderDetailsLocal message products) :
    item.flavor ∈ products.map (fun p => p.name) := by
  have hg : item.flavor ∈ flavorsOf (extractOrderDetailsLocal message products) :=
    List.mem_map.mpr ⟨item, h, rfl⟩
  unfold extractOrderDetailsLocal at hg
  rcases foldl_extract_flavors (jsToLower message) products [] item.flavor hg with h2 | h2
  · simp [flavorsOf] at h2
  · obtain ⟨p, hp, hp2⟩ := h2
    exact List.mem_map.mpr ⟨p, hp, hp2.symm⟩

theorem extract_flavors_recognized_witness :
    (⟨"Chocolate Chip", 2⟩ : XItem) ∈
      extractOrderDetailsLocal "2 dozen chocolate chip" configProducts ∧
    "Chocolate Chip" ∈ configProducts.map (fun p => p.name) :=
  ⟨by decide,
    extract_flavors_recognized_amended "2 dozen chocolate chip" configProducts
      ⟨"Chocolate Chip", 2⟩ (by decide)⟩

/-! ### C8 — ORDER is checked before ORDER_ITEM -/

/-- C8 (counterexample): "want a cookie 2 dozen chocolate chip" matches
both the quantity-adjacent-unit rule (ORDER_ITEM) and the
ordering-verb-near-order-noun rule (ORDER), and `classifyIntentQuick`
returns ORDER — not ORDER_ITEM as the stated precedence (rule 2 before
rule 3) requires. -/
theorem order_precedence_counterexample :
    reTest orderItemRE (jsTrim (jsToLower "want a cookie 2 dozen chocolate chip")) = true ∧
    reTest orderRE (jsTrim (jsToLower "want a cookie 2 dozen chocolate chip")) = true ∧
    classifyIntentQuick "want a cookie 2 dozen chocolate chip" = "ORDER" ∧
    classifyIntentQuick "want a cookie 2 dozen chocolate chip" ≠ "ORDER_ITEM" :=
  ⟨rfl, rfl, rfl, by decide⟩

/-- C8 (amended): `classifyIntentQuick` checks the ordering-verb rule
(ORDER) before the quantity-with-unit rule (ORDER_ITEM): every
non-greeting message matching the ORDER regex classifies as ORDER, even
when the ORDER_ITEM regex also matches. -/
theorem order_before_order_item_amended (message : String)
    (hg : reFull greetingRE (jsTrim (jsToLower message)) = false)
    (ho : reTest orderRE (jsTrim (jsToLower message)) = true) :
    classifyIntentQuick message = "ORDER" := by
  simp [classifyIntentQuick, hg, ho]

theorem order_before_order_item_witness :
    classifyIntentQuick "want a cookie 2 dozen chocolate chip" = "ORDER" :=
  order_before_order_item_amended "want a cookie 2 dozen chocolate chip" rfl rfl

end Smb
